import Mathlib

/-!
# Verification of the ccr-ide remote-terminal broker

A shallow embedding of the core components of the `ccr-ide` repository
(a WebSocket broker multiplexing PTY sessions to remote clients), together
with proofs about the embedded definitions.

Modelling conventions, used consistently below:

* Node `Buffer` values are modelled as `List Nat` (one `Nat` per byte).
  JavaScript strings that only ever flow into `Buffer.from(s, 'utf-8')`
  are modelled by their UTF-8 byte lists.
* Fallible operations (`throw` in JS) are modelled with `Except String`.
* `Date.now()` timestamps are modelled as `Int` (JS number arithmetic on
  millisecond timestamps is exact integer arithmetic in the ranges used).
* `Map` objects keyed by strings are modelled as association lists with
  JS `Map.get`/`Map.set` semantics.
-/

namespace Ccr

/-! ## Protocol codec — `src/shared/protocol.ts`, `src/shared/types.ts`

`MessageType` is the wire enum from `src/shared/types.ts` (the extended
variant that includes the file-IO and session-output frames).  `code` is the
numeric value assigned by the enum. -/

inductive MessageType where
  | TERMINAL_DATA
  | RESIZE
  | PING
  | PONG
  | SESSION_CONTROL
  | AUTH
  | ERROR
  | SESSION_LIST
  | AUTH_OK
  | SESSION_OUTPUT
  | FILE_LIST
  | FILE_READ
  | FILE_CONTENT
  | FILE_WRITE
deriving DecidableEq, Repr

def MessageType.code : MessageType → Nat
  | .TERMINAL_DATA => 0x00
  | .RESIZE => 0x01
  | .PING => 0x02
  | .PONG => 0x03
  | .SESSION_CONTROL => 0x04
  | .AUTH => 0x05
  | .ERROR => 0x06
  | .SESSION_LIST => 0x07
  | .AUTH_OK => 0x08
  | .SESSION_OUTPUT => 0x09
  | .FILE_LIST => 0x0a
  | .FILE_READ => 0x0b
  | .FILE_CONTENT => 0x0c
  | .FILE_WRITE => 0x0d

/-- `encodeMessage` from `src/shared/protocol.ts`.  The `payload` argument is
the payload in byte form: for `TERMINAL_DATA` the raw bytes, for the JSON
kinds the UTF-8 bytes of the JSON string (the source's
`Buffer.from(JSON.stringify(...), 'utf-8')` step is identity here because we
work with the encoded bytes directly).  For `PING`/`PONG` the source ignores
the argument and emits an empty payload (`Buffer.alloc(0)`). -/
def encodeMessage (type : MessageType) (payload : List Nat) : List Nat :=
  let payloadBuf :=
    if type = MessageType.TERMINAL_DATA then payload
    else if type = MessageType.PING ∨ type = MessageType.PONG then []
    else payload
  type.code :: payloadBuf

/-- `DecodedMessage` from `src/shared/protocol.ts`.  The source casts the
first byte to `MessageType` without validation (`buf[0] as MessageType`), so
the decoded type is the raw byte. -/
structure DecodedMessage where
  type : Nat
  payload : List Nat
deriving DecidableEq, Repr

/-- `decodeMessage` from `src/shared/protocol.ts`: throws on an empty buffer,
otherwise splits off the type byte. -/
def decodeMessage (data : List Nat) : Except String DecodedMessage :=
  match data with
  | [] => .error "Message too short: missing type byte"
  | t :: rest => .ok ⟨t, rest⟩

/-- Little-endian 4-byte encoding used by `Buffer.writeUInt32LE`.  The
source throws when the value does not fit in 32 bits; theorems below carry
that bound as a hypothesis. -/
def u32le (n : Nat) : List Nat :=
  [n % 256, n / 256 % 256, n / 65536 % 256, n / 16777216 % 256]

/-- `Buffer.readUInt32LE(0)` on the first four bytes. -/
def readU32le (b0 b1 b2 b3 : Nat) : Nat :=
  b0 + 256 * b1 + 65536 * b2 + 16777216 * b3

/-- `encodeSessionOutput` from `src/shared/protocol.ts`: emits the full
frame `[type byte][uint32-LE id length][id bytes][data bytes]`.  The session
id is modelled by its UTF-8 bytes. -/
def encodeSessionOutput (sessionId : List Nat) (data : List Nat) : List Nat :=
  MessageType.SESSION_OUTPUT.code :: (u32le sessionId.length ++ sessionId ++ data)

/-- `decodeSessionOutput` from `src/shared/protocol.ts`.  Its argument is a
*payload* buffer: `payload.readUInt32LE(0)` (which throws when fewer than 4
bytes are available), then `payload.subarray(4, 4 + len)` and
`payload.subarray(4 + len)` — `subarray` clamps out-of-range indices, which
is exactly the behaviour of `List.take`/`List.drop`. -/
def decodeSessionOutput (payload : List Nat) :
    Except String (List Nat × List Nat) :=
  match payload with
  | b0 :: b1 :: b2 :: b3 :: rest =>
    let sessionIdLen := readU32le b0 b1 b2 b3
    .ok (rest.take sessionIdLen, rest.drop sessionIdLen)
  | _ => .error "out of range"

end Ccr

namespace Ccr

theorem readU32le_u32le (n : Nat) (h : n < 2 ^ 32) :
    ∀ b0 b1 b2 b3, u32le n = [b0, b1, b2, b3] → readU32le b0 b1 b2 b3 = n := by
  intro b0 b1 b2 b3 hu
  simp only [u32le, List.cons.injEq] at hu
  obtain ⟨h0, h1, h2, h3, -⟩ := hu
  subst h0 h1 h2 h3
  simp only [readU32le]
  omega

theorem decodeSessionOutput_payload (sessionId data : List Nat)
    (h : sessionId.length < 2 ^ 32) :
    decodeSessionOutput (u32le sessionId.length ++ sessionId ++ data) =
      .ok (sessionId, data) := by
  have hr := readU32le_u32le sessionId.length h
  simp only [u32le] at hr ⊢
  simp only [decodeSessionOutput, List.cons_append, List.append_assoc]
  rw [hr _ _ _ _ rfl]
  simp only [List.nil_append, Except.ok.injEq, Prod.mk.injEq]
  constructor
  · rw [List.take_left]
  · rw [List.drop_left]

/-- C2 — the claim as stated is false: `decodeSessionOutput` expects the
`SESSION_OUTPUT` *payload* (the frame with its leading type byte already
stripped by `decodeMessage`), while `encodeSessionOutput` produces the full
frame including the type byte.  Feeding the full frame to the decoder
misreads the length field.  Concretely, for id `"ab"` (bytes `[97, 98]`)
and data `"x"` (byte `[120]`), the composition returns
`([0, 97, 98, 120], [])`, not `([97, 98], [120])`. -/
theorem sessionOutput_roundtrip_fails_on_full_frame :
    decodeSessionOutput (encodeSessionOutput [97, 98] [120]) ≠
      .ok ([97, 98], [120]) ∧
    decodeSessionOutput (encodeSessionOutput [97, 98] [120]) =
      .ok ([0, 97, 98, 120], []) := by
  have hc : decodeSessionOutput (encodeSessionOutput [97, 98] [120]) =
      .ok ([0, 97, 98, 120], []) := rfl
  refine ⟨fun h => ?_, hc⟩
  rw [hc] at h
  simp at h

/-- C2 (amended) — composing the `SESSION_OUTPUT` encoder with the frame
decoder and then the `SESSION_OUTPUT` payload decoder is the identity: for
every session id (as UTF-8 bytes, shorter than 2^32 so that
`writeUInt32LE` does not throw) and every byte payload,
`decodeSessionOutput` applied to the payload of
`decodeMessage (encodeSessionOutput id bytes)` returns `(id, bytes)`. -/
theorem sessionOutput_roundtrip (sessionId data : List Nat)
    (h : sessionId.length < 2 ^ 32) :
    (decodeMessage (encodeSessionOutput sessionId data)).bind
        (fun m => decodeSessionOutput m.payload) =
      .ok (sessionId, data) := by
  simp only [encodeSessionOutput, decodeMessage, Except.bind]
  exact decodeSessionOutput_payload sessionId data h

/-- Closed witness for `sessionOutput_roundtrip` at id `"a"`, data `[1, 2]`. -/
theorem sessionOutput_roundtrip_witness :
    ([97] : List Nat).length < 2 ^ 32 ∧
      (decodeMessage (encodeSessionOutput [97] [1, 2])).bind
          (fun m => decodeSessionOutput m.payload) =
        .ok ([97], [1, 2]) :=
  ⟨by decide, sessionOutput_roundtrip [97] [1, 2] (by decide)⟩

/-- C7 — for every message kind `k` and payload `p` (with `p` empty when `k`
is `PING` or `PONG`, and `p` the raw bytes when `k` is `TERMINAL_DATA`),
`decodeMessage (encodeMessage k p)` succeeds and returns exactly the kind's
code byte together with the payload `p`. -/
theorem message_roundtrip (k : MessageType) (p : List Nat)
    (h : k = MessageType.PING ∨ k = MessageType.PONG → p = []) :
    decodeMessage (encodeMessage k p) = .ok ⟨k.code, p⟩ := by
  cases k <;>
    simp_all [encodeMessage, decodeMessage, MessageType.code]

/-- Closed witness for `message_roundtrip`: a `RESIZE` frame with a two-byte
payload, and a `PING` frame with the empty payload. -/
theorem message_roundtrip_witness :
    ((MessageType.RESIZE = MessageType.PING ∨
        MessageType.RESIZE = MessageType.PONG → ([5, 6] : List Nat) = []) ∧
      decodeMessage (encodeMessage MessageType.RESIZE [5, 6]) =
        .ok ⟨MessageType.RESIZE.code, [5, 6]⟩) ∧
    decodeMessage (encodeMessage MessageType.PING []) =
      .ok ⟨MessageType.PING.code, []⟩ :=
  ⟨⟨by decide, message_roundtrip MessageType.RESIZE [5, 6] (by decide)⟩,
    message_roundtrip MessageType.PING [] (by decide)⟩

/-! ## Ring buffer — `src/server/ring-buffer.ts` -/

/-- `RingBuffer` state: the chunk list, the running byte total, and the
configured capacity. -/
structure RingBuffer where
  chunks : List (List Nat)
  totalBytes : Nat
  maxBytes : Nat
deriving DecidableEq, Repr

/-- A freshly constructed `new RingBuffer(maxBytes)`. -/
def RingBuffer.mk0 (maxBytes : Nat) : RingBuffer :=
  ⟨[], 0, maxBytes⟩

/-- The eviction loop of `push`:
`while (totalBytes > maxBytes && chunks.length > 1) { shift; subtract }`.
`chunks.length > 1` is expressed by the two-cons pattern. -/
def evictLoop (maxBytes : Nat) : List (List Nat) → Nat → List (List Nat) × Nat
  | [], total => ([], total)
  | [c], total => ([c], total)
  | c :: c' :: rest, total =>
    if total > maxBytes then evictLoop maxBytes (c' :: rest) (total - c.length)
    else (c :: c' :: rest, total)

/-- `RingBuffer.push`: append the chunk, add its length, then evict oldest
chunks while over capacity and more than one chunk remains. -/
def RingBuffer.push (rb : RingBuffer) (buf : List Nat) : RingBuffer :=
  let chunks := rb.chunks ++ [buf]
  let total := rb.totalBytes + buf.length
  let evicted := evictLoop rb.maxBytes chunks total
  ⟨evicted.1, evicted.2, rb.maxBytes⟩

/-- `RingBuffer.getAll`: `Buffer.concat(this.chunks)`. -/
def RingBuffer.getAll (rb : RingBuffer) : List Nat :=
  rb.chunks.flatten

/-- `RingBuffer.size` getter. -/
def RingBuffer.size (rb : RingBuffer) : Nat :=
  rb.totalBytes

/-- A sequence of `push` calls in order. -/
def RingBuffer.pushAll (rb : RingBuffer) (bufs : List (List Nat)) : RingBuffer :=
  bufs.foldl RingBuffer.push rb

/-- Total byte count of a chunk list. -/
def sumLen (chunks : List (List Nat)) : Nat :=
  (chunks.map List.length).sum

theorem evictLoop_suffix (maxBytes : Nat) :
    ∀ (chunks : List (List Nat)) (total : Nat),
      (evictLoop maxBytes chunks total).1 <:+ chunks
  | [], _ => List.suffix_refl _
  | [_], _ => List.suffix_refl _
  | c :: c' :: rest, total => by
    rw [evictLoop]
    split
    · exact (evictLoop_suffix maxBytes (c' :: rest) (total - c.length)).trans
        (List.suffix_cons c (c' :: rest))
    · exact List.suffix_refl _

theorem evictLoop_total (maxBytes : Nat) :
    ∀ (chunks : List (List Nat)) (total : Nat), total = sumLen chunks →
      (evictLoop maxBytes chunks total).2 = sumLen (evictLoop maxBytes chunks total).1
  | [], _, h => h
  | [_], _, h => h
  | c :: c' :: rest, total, h => by
    rw [evictLoop]
    split
    · refine evictLoop_total maxBytes (c' :: rest) (total - c.length) ?_
      simp [sumLen] at h ⊢
      omega
    · exact h

theorem evictLoop_bound (maxBytes : Nat) :
    ∀ (chunks : List (List Nat)) (total : Nat),
      (evictLoop maxBytes chunks total).2 ≤ maxBytes ∨
        (evictLoop maxBytes chunks total).1.length ≤ 1
  | [], _ => .inr (by simp [evictLoop])
  | [_], _ => .inr (by simp [evictLoop])
  | c :: c' :: rest, total => by
    rw [evictLoop]
    split
    · exact evictLoop_bound maxBytes (c' :: rest) (total - c.length)
    · rename_i hle
      exact .inl (by omega)

theorem evictLoop_ne_nil (maxBytes : Nat) :
    ∀ (chunks : List (List Nat)) (total : Nat), chunks ≠ [] →
      (evictLoop maxBytes chunks total).1 ≠ []
  | [], _, h => absurd rfl h
  | [_], _, _ => by simp [evictLoop]
  | c :: c' :: rest, total, _ => by
    rw [evictLoop]
    split
    · exact evictLoop_ne_nil maxBytes (c' :: rest) (total - c.length) (by simp)
    · simp

/-- Invariant carried through `pushAll`: the chunk list is a suffix of the
pushed chunks, and the byte total matches the chunk list. -/
theorem pushAll_invariant (maxBytes : Nat) :
    ∀ (bufs : List (List Nat)) (rb : RingBuffer),
      rb.maxBytes = maxBytes →
      rb.totalBytes = sumLen rb.chunks →
      (rb.pushAll bufs).maxBytes = maxBytes ∧
        (rb.pushAll bufs).totalBytes = sumLen (rb.pushAll bufs).chunks ∧
        ∃ pre, pre ++ (rb.pushAll bufs).chunks = rb.chunks ++ bufs
  | [], rb, hmax, htot => ⟨hmax, htot, [], by simp [RingBuffer.pushAll]⟩
  | buf :: bufs, rb, hmax, htot => by
    have hstep : (rb.push buf).maxBytes = maxBytes ∧
        (rb.push buf).totalBytes = sumLen (rb.push buf).chunks ∧
        ∃ pre, pre ++ (rb.push buf).chunks = rb.chunks ++ [buf] := by
      refine ⟨hmax, ?_, ?_⟩
      · refine evictLoop_total rb.maxBytes (rb.chunks ++ [buf])
          (rb.totalBytes + buf.length) ?_
        simp [sumLen] at htot ⊢
        omega
      · obtain ⟨pre, hpre⟩ :=
          evictLoop_suffix rb.maxBytes (rb.chunks ++ [buf]) (rb.totalBytes + buf.length)
        exact ⟨pre, hpre⟩
    obtain ⟨h1, h2, pre, hpre⟩ := hstep
    obtain ⟨h1', h2', pre', hpre'⟩ := pushAll_invariant maxBytes bufs (rb.push buf) h1 h2
    refine ⟨h1', h2', pre ++ pre', ?_⟩
    have : (rb.pushAll (buf :: bufs)) = (rb.push buf).pushAll bufs := rfl
    rw [this, List.append_assoc, hpre', ← List.append_assoc, hpre, List.append_assoc,
      List.singleton_append]

/-- After any single `push`, either the byte total is within the cap or the
buffer has been reduced to exactly one chunk (the oversized-sole-chunk
case). -/
theorem RingBuffer.push_bound (rb : RingBuffer) (buf : List Nat) :
    (rb.push buf).size ≤ rb.maxBytes ∨ (rb.push buf).chunks.length = 1 := by
  rcases evictLoop_bound rb.maxBytes (rb.chunks ++ [buf]) (rb.totalBytes + buf.length)
    with h | h
  · exact .inl h
  · right
    have hne := evictLoop_ne_nil rb.maxBytes (rb.chunks ++ [buf])
      (rb.totalBytes + buf.length) (by simp)
    have hpos : 0 < (evictLoop rb.maxBytes (rb.chunks ++ [buf])
        (rb.totalBytes + buf.length)).1.length := List.length_pos.mpr hne
    show (evictLoop rb.maxBytes (rb.chunks ++ [buf])
        (rb.totalBytes + buf.length)).1.length = 1
    omega

/-- C3 — the claim as stated is false: a single push of an oversized chunk
leaves `size > maxBytes`, because the eviction loop never drops the sole
remaining chunk.  With `maxBytes = 2` and one push of three bytes
(total `b = 3 > 2`), the resulting size is `3`. -/
theorem ringBuffer_size_bound_fails :
    sumLen [[1, 2, 3]] > 2 ∧
      ¬ (((RingBuffer.mk0 2).pushAll [[1, 2, 3]]).size ≤ 2) := by
  decide

/-- C3 (amended) — for every nonempty sequence of pushes on a fresh
`RingBuffer maxBytes` whose total byte count exceeds `maxBytes`, after the
last push either `size ≤ maxBytes` or the buffer has been reduced to a
single (oversized) chunk, and `getAll ()` equals a suffix of the
concatenation of all pushed byte strings in push order. -/
theorem ringBuffer_suffix_and_bound (maxBytes : Nat) (bufs : List (List Nat))
    (hover : sumLen bufs > maxBytes) :
    (((RingBuffer.mk0 maxBytes).pushAll bufs).size ≤ maxBytes ∨
        ((RingBuffer.mk0 maxBytes).pushAll bufs).chunks.length = 1) ∧
      ((RingBuffer.mk0 maxBytes).pushAll bufs).getAll <:+ bufs.flatten := by
  obtain ⟨hmax, htot, pre, hpre⟩ :=
    pushAll_invariant maxBytes bufs (RingBuffer.mk0 maxBytes) rfl rfl
  constructor
  · rcases bufs.eq_nil_or_concat with rfl | ⟨init, last, rfl⟩
    · simp [sumLen] at hover
    · have hsplit : (RingBuffer.mk0 maxBytes).pushAll (init.concat last) =
          ((RingBuffer.mk0 maxBytes).pushAll init).push last := by
        simp [RingBuffer.pushAll, List.concat_eq_append]
      rw [hsplit]
      have hm : ((RingBuffer.mk0 maxBytes).pushAll init).maxBytes = maxBytes :=
        (pushAll_invariant maxBytes init (RingBuffer.mk0 maxBytes) rfl rfl).1
      have hb := RingBuffer.push_bound ((RingBuffer.mk0 maxBytes).pushAll init) last
      rw [hm] at hb
      exact hb
  · refine ⟨pre.flatten, ?_⟩
    rw [RingBuffer.getAll, ← List.flatten_append, hpre]
    simp [RingBuffer.mk0]

/-- Closed witness for `ringBuffer_suffix_and_bound`: capacity 3, pushes of
2 + 2 + 2 = 6 bytes. -/
theorem ringBuffer_suffix_and_bound_witness :
    sumLen [[1, 2], [3, 4], [5, 6]] > 3 ∧
      ((((RingBuffer.mk0 3).pushAll [[1, 2], [3, 4], [5, 6]]).size ≤ 3 ∨
          (((RingBuffer.mk0 3).pushAll [[1, 2], [3, 4], [5, 6]]).chunks.length = 1)) ∧
        ((RingBuffer.mk0 3).pushAll [[1, 2], [3, 4], [5, 6]]).getAll <:+
          ([[1, 2], [3, 4], [5, 6]] : List (List Nat)).flatten) :=
  ⟨by decide, ringBuffer_suffix_and_bound 3 [[1, 2], [3, 4], [5, 6]] (by decide)⟩

/-! ## Rate limiter — `src/server/rate-limiter.ts`

The broker constructs it as `new RateLimiter(200, 1000)`
(`src/server/ws-server.ts`).  The `windows` map is modelled as an
association list with JS `Map` get/set semantics; timestamps are `Int`
(`Date.now()` milliseconds, and `now - windowMs` may be negative in JS). -/

structure RateLimiter where
  maxRequests : Nat
  windowMs : Int
  windows : List (String × List Int)
deriving DecidableEq, Repr

/-- `this.windows.get(key) ?? []`. -/
def RateLimiter.getWindow (rl : RateLimiter) (key : String) : List Int :=
  (rl.windows.lookup key).getD []

/-- JS `Map.set`: replace the binding if present, else append. -/
def setAssoc (m : List (String × List Int)) (key : String) (v : List Int) :
    List (String × List Int) :=
  match m with
  | [] => [(key, v)]
  | (k', v') :: rest =>
    if k' = key then (key, v) :: rest else (k', v') :: setAssoc rest key v

/-- `RateLimiter.check` from `src/server/rate-limiter.ts`: drop timestamps
at or before `now - windowMs`, deny if the remaining count has reached
`maxRequests`, otherwise record `now` and allow. -/
def RateLimiter.check (rl : RateLimiter) (key : String) (now : Int) :
    Bool × RateLimiter :=
  let timestamps := rl.getWindow key
  let windowStart := now - rl.windowMs
  let filtered := timestamps.filter (fun t => windowStart < t)
  if rl.maxRequests ≤ filtered.length then
    (false, { rl with windows := setAssoc rl.windows key filtered })
  else
    (true, { rl with windows := setAssoc rl.windows key (filtered ++ [now]) })

/-- `RateLimiter.remove`: JS `Map.delete`. -/
def RateLimiter.remove (rl : RateLimiter) (key : String) : RateLimiter :=
  { rl with windows := rl.windows.filter (fun e => e.1 ≠ key) }

/-- A sequence of `check` calls for one key at the given times, collecting
the returned booleans. -/
def RateLimiter.run (rl : RateLimiter) (key : String) :
    List Int → List Bool × RateLimiter
  | [] => ([], rl)
  | t :: rest =>
    let r := rl.check key t
    let rr := r.2.run key rest
    (r.1 :: rr.1, rr.2)

/-- The limiter the broker uses: `new RateLimiter(200, 1000)`
(`src/server/ws-server.ts` line 84), with an empty window map. -/
def brokerLimiter : RateLimiter :=
  ⟨200, 1000, []⟩

theorem getWindow_single (key : String) (w : List Int) (m : Nat) (wm : Int) :
    RateLimiter.getWindow ⟨m, wm, [(key, w)]⟩ key = w := by
  simp [RateLimiter.getWindow, List.lookup]

theorem setAssoc_single (key : String) (w v : List Int) :
    setAssoc [(key, w)] key v = [(key, v)] := by
  simp [setAssoc]

/-- One allowed `check`: if every recorded timestamp is still inside the
window of `t` and fewer than 200 are recorded, the call is allowed and
appends `t`. -/
theorem check_allows (key : String) (prev : List Int) (t : Int)
    (hlen : prev.length < 200) (hin : ∀ s ∈ prev, t - s < 1000) :
    RateLimiter.check ⟨200, 1000, [(key, prev)]⟩ key t =
      (true, ⟨200, 1000, [(key, prev ++ [t])]⟩) := by
  have hkeep : prev.filter (fun s => decide (t - 1000 < s)) = prev := by
    refine List.filter_eq_self.mpr fun s hs => ?_
    have := hin s hs
    simp only [decide_eq_true_eq]
    omega
  simp only [RateLimiter.check, getWindow_single, hkeep]
  rw [if_neg (by omega)]
  simp [setAssoc_single]

/-- Running a block of ≤ 200 in-window checks from a state whose recorded
timestamps are all inside the window of every upcoming call: every call is
allowed and the final window holds all timestamps in order. -/
theorem run_accepts (key : String) :
    ∀ (ts prev : List Int),
      prev.length + ts.length ≤ 200 →
      (∀ s ∈ prev, ∀ t ∈ ts, t - s < 1000) →
      ts.Pairwise (fun a b => b - a < 1000) →
      RateLimiter.run ⟨200, 1000, [(key, prev)]⟩ key ts =
        (List.replicate ts.length true, ⟨200, 1000, [(key, prev ++ ts)]⟩)
  | [], prev, _, _, _ => by simp [RateLimiter.run]
  | t :: ts, prev, hlen, hcross, hpair => by
    simp only [List.length_cons] at hlen
    have hstep := check_allows key prev t (by omega)
      (fun s hs => hcross s hs t (List.mem_cons_self t ts))
    have hrec := run_accepts key ts (prev ++ [t]) (by simp; omega)
      (by
        intro s hs u hu
        rcases List.mem_append.mp hs with h | h
        · exact hcross s h u (List.mem_cons_of_mem t hu)
        · rw [List.mem_singleton.mp h]
          exact List.rel_of_pairwise_cons hpair hu)
      (List.Pairwise.of_cons hpair)
    simp only [RateLimiter.run, hstep, hrec, List.length_cons, List.replicate_succ,
      List.append_assoc, List.singleton_append]

/-- Running a concatenation of call sequences composes. -/
theorem RateLimiter.run_append (rl : RateLimiter) (key : String)
    (l1 l2 : List Int) :
    rl.run key (l1 ++ l2) =
      ((rl.run key l1).1 ++ ((rl.run key l1).2.run key l2).1,
        ((rl.run key l1).2.run key l2).2) := by
  induction l1 generalizing rl with
  | nil => simp [RateLimiter.run]
  | cons t l1 ih => simp [RateLimiter.run, ih]

/-- A full run of a nonempty in-window call sequence from the broker's
fresh limiter: every call is allowed and the window records the calls. -/
theorem run_from_empty (key : String) (t : Int) (ts : List Int)
    (hlen : (t :: ts).length ≤ 200)
    (hpair : (t :: ts).Pairwise (fun a b => b - a < 1000)) :
    brokerLimiter.run key (t :: ts) =
      (List.replicate (t :: ts).length true, ⟨200, 1000, [(key, t :: ts)]⟩) := by
  have hfirst : brokerLimiter.check key t = (true, ⟨200, 1000, [(key, [t])]⟩) := by
    simp [RateLimiter.check, RateLimiter.getWindow, brokerLimiter, List.lookup, setAssoc]
  have hrec := run_accepts key ts [t]
    (by simp at hlen ⊢; omega)
    (by
      intro s hs u hu
      rw [List.mem_singleton.mp hs]
      exact List.rel_of_pairwise_cons hpair hu)
    (List.Pairwise.of_cons hpair)
  simp only [RateLimiter.run, hfirst, hrec, List.length_cons, List.replicate_succ,
    List.singleton_append]

/-- A denied `check`: with the per-key budget already full of in-window
timestamps, the next in-window call returns `false`. -/
theorem check_denies (key : String) (prev : List Int) (t : Int)
    (hlen : 200 ≤ prev.length) (hin : ∀ s ∈ prev, t - s < 1000) :
    (RateLimiter.check ⟨200, 1000, [(key, prev)]⟩ key t).1 = false := by
  have hkeep : prev.filter (fun s => decide (t - 1000 < s)) = prev := by
    refine List.filter_eq_self.mpr fun s hs => ?_
    have := hin s hs
    simp only [decide_eq_true_eq]
    omega
  simp only [RateLimiter.check, getWindow_single, hkeep]
  rw [if_pos (by omega)]

/-- C5 — the broker's rate limiter (`maxRequests = 200`, `windowMs = 1000`):
(1) every sequence of at most 200 `check` calls for a key whose timestamps
lie inside one window (each call less than `windowMs` after every earlier
one) is fully allowed; (2) a 201st call inside the same window is denied;
(3) once every recorded timestamp is at least `windowMs` in the past, a
fresh `check` for that key is allowed again. -/
theorem rateLimiter_window :
    (∀ (key : String) (ts : List Int), ts.length ≤ 200 →
        ts.Pairwise (fun a b => b - a < 1000) →
        (brokerLimiter.run key ts).1 = List.replicate ts.length true) ∧
      (∀ (key : String) (ts : List Int) (t : Int), ts.length = 200 →
        ts.Pairwise (fun a b => b - a < 1000) → (∀ s ∈ ts, t - s < 1000) →
        (brokerLimiter.run key (ts ++ [t])).1 =
          List.replicate 200 true ++ [false]) ∧
      (∀ (key : String) (w : List Int) (t : Int), (∀ s ∈ w, 1000 ≤ t - s) →
        (RateLimiter.check ⟨200, 1000, [(key, w)]⟩ key t).1 = true) := by
  refine ⟨?_, ?_, ?_⟩
  · intro key ts hlen hpair
    cases ts with
    | nil => simp [RateLimiter.run]
    | cons t ts =>
      rw [run_from_empty key t ts hlen hpair]
  · intro key ts t hlen hpair hin
    cases ts with
    | nil => simp at hlen
    | cons t0 ts =>
      rw [RateLimiter.run_append]
      rw [run_from_empty key t0 ts (le_of_eq hlen) hpair]
      have hd := check_denies key (t0 :: ts) t (by omega) hin
      simp only [RateLimiter.run, hd]
      rw [← hlen]
  · intro key w t helapsed
    have hdrop : w.filter (fun s => decide (t - 1000 < s)) = [] := by
      refine List.filter_eq_nil_iff.mpr fun s hs => ?_
      have := helapsed s hs
      simp only [decide_eq_true_eq]
      omega
    simp [RateLimiter.check, getWindow_single, hdrop]

/-- Closed witness for `rateLimiter_window`: two in-window calls at `0, 1`
are allowed; 200 calls at time `0` followed by one at `5` end in a denial;
a call at `1000` with only the stale timestamp `0` recorded is allowed. -/
theorem rateLimiter_window_witness :
    (brokerLimiter.run "k" [0, 1]).1 = List.replicate 2 true ∧
      (brokerLimiter.run "k" (List.replicate 200 (0 : Int) ++ [5])).1 =
        List.replicate 200 true ++ [false] ∧
      (RateLimiter.check ⟨200, 1000, [("k", [0])]⟩ "k" 1000).1 = true :=
  ⟨rateLimiter_window.1 "k" [0, 1] (by decide) (by decide),
    rateLimiter_window.2.1 "k" (List.replicate 200 0) 5 (by rw [List.length_replicate])
      ((List.pairwise_replicate).mpr (.inr (by norm_num)))
      (fun s hs => by rw [List.eq_of_mem_replicate hs]; norm_num),
    rateLimiter_window.2.2 "k" [0] 1000 (by decide)⟩

/-! ## Session manager — `src/server/session-manager.ts`

Each managed session holds the attached client (`client`), the stored
`onData` callback, and the PTY session's registered `data`-event listener
list (`listeners`).  Callbacks/closures are identified by numbers drawn
from a `nextHandler` counter (each `attachClient` call and each
`() => {}` creates a fresh closure).  The PTY process itself, the
scrollback, and the `exit` subscription do not affect the attachment
bookkeeping and are modelled where needed (scrollback lives in the broker
section below). -/

structure ManagedSession where
  client : Option Nat
  onData : Nat
  listeners : List Nat
  scrollback : List Nat
deriving DecidableEq, Repr

/-- Session-manager state: the `id → ManagedSession` map plus the fresh
closure counter. -/
structure SMState where
  sessions : List (String × ManagedSession)
  nextHandler : Nat
deriving DecidableEq, Repr

def SMState.lookup (s : SMState) (id : String) : Option ManagedSession :=
  s.sessions.lookup id

/-- JS `Map.set` on the session map. -/
def setSession (m : List (String × ManagedSession)) (id : String)
    (v : ManagedSession) : List (String × ManagedSession) :=
  match m with
  | [] => [(id, v)]
  | (k', v') :: rest =>
    if k' = id then (id, v) :: rest else (k', v') :: setSession rest id v

/-- JS `Map.delete` on the session map. -/
def deleteSession (m : List (String × ManagedSession)) (id : String) :
    List (String × ManagedSession) :=
  m.filter (fun e => e.1 ≠ id)

/-- Node's `EventEmitter.removeListener`: removes the most recently added
occurrence of the listener, if any. -/
def removeListener (ls : List Nat) (h : Nat) : List Nat :=
  (ls.reverse.erase h).reverse

/-- `SessionManager.createSession` (attachment-relevant part): a new entry
with no client, a fresh `() => {}` callback, and no `data` listener. -/
def SMState.createSession (s : SMState) (id : String) : SMState :=
  ⟨setSession s.sessions id ⟨none, s.nextHandler, [], []⟩, s.nextHandler + 1⟩

/-- `SessionManager.attachClient`: returns `false` iff the id is unknown;
otherwise removes the previous client's `data` listener (if a client was
attached), stores the socket and the fresh callback, and registers it. -/
def SMState.attachClient (s : SMState) (id : String) (ws : Nat) :
    Bool × SMState :=
  match s.lookup id with
  | none => (false, s)
  | some m =>
    let ls := if m.client.isSome then removeListener m.listeners m.onData
      else m.listeners
    let h := s.nextHandler
    (true,
      ⟨setSession s.sessions id ⟨some ws, h, ls ++ [h], m.scrollback⟩,
        s.nextHandler + 1⟩)

/-- `SessionManager.detachClient`: removes the current subscription and
clears the attached socket (idempotent; `onData` is reset to a fresh
`() => {}`). -/
def SMState.detachClient (s : SMState) (id : String) : SMState :=
  match s.lookup id with
  | none => s
  | some m =>
    ⟨setSession s.sessions id
      ⟨none, s.nextHandler, removeListener m.listeners m.onData, m.scrollback⟩,
      s.nextHandler + 1⟩

/-- `SessionManager.destroySession`: kills the child and removes the
entry (returns `false` iff unknown, not modelled separately). -/
def SMState.destroySession (s : SMState) (id : String) : SMState :=
  ⟨deleteSession s.sessions id, s.nextHandler⟩

/-- The session's `exit` event handler registered by `createSession`:
removes the entry. -/
def SMState.sessionExit (s : SMState) (id : String) : SMState :=
  ⟨deleteSession s.sessions id, s.nextHandler⟩

/-- One session-manager transition. -/
inductive SMStep : SMState → SMState → Prop where
  | create (s : SMState) (id : String) : SMStep s (s.createSession id)
  | attach (s : SMState) (id : String) (ws : Nat) :
      SMStep s (s.attachClient id ws).2
  | detach (s : SMState) (id : String) : SMStep s (s.detachClient id)
  | destroy (s : SMState) (id : String) : SMStep s (s.destroySession id)
  | exit (s : SMState) (id : String) : SMStep s (s.sessionExit id)

/-- The empty manager (`new SessionManager(...)`). -/
def SMState.init : SMState := ⟨[], 0⟩

/-- States reachable from the fresh manager by manager transitions. -/
def SMReachable (s : SMState) : Prop :=
  Relation.ReflTransGen SMStep SMState.init s

/-- The single-subscription invariant for one entry: the session has at
most one `data` listener, a present listener is exactly the stored
`onData` callback, and a present listener implies an attached client. -/
def EntryInv (m : ManagedSession) : Prop :=
  (m.listeners = [] ∨ m.listeners = [m.onData]) ∧
    (m.listeners ≠ [] → m.client.isSome)

instance : DecidablePred EntryInv := fun m => by
  unfold EntryInv
  infer_instance

def SMInv (s : SMState) : Prop :=
  ∀ e ∈ s.sessions, EntryInv e.2

theorem lookup_mem :
    ∀ (m : List (String × ManagedSession)) (id : String) (v : ManagedSession),
      m.lookup id = some v → (id, v) ∈ m
  | [], _, _, h => by simp [List.lookup] at h
  | (k, w) :: rest, id, v, h => by
    rw [List.lookup] at h
    split at h
    · rename_i heq
      have hk : id = k := by simpa using heq
      cases h
      exact hk ▸ List.mem_cons_self _ _
    · exact List.mem_cons_of_mem _ (lookup_mem rest id v h)

theorem mem_setSession :
    ∀ (m : List (String × ManagedSession)) (id : String) (v : ManagedSession)
      (e : String × ManagedSession),
      e ∈ setSession m id v → e = (id, v) ∨ e ∈ m
  | [], id, v, e, h => by
    rw [setSession] at h
    exact .inl (List.mem_singleton.mp h)
  | (k, w) :: rest, id, v, e, h => by
    rw [setSession] at h
    split at h
    · rcases List.mem_cons.mp h with h1 | h1
      · exact .inl h1
      · exact .inr (List.mem_cons_of_mem _ h1)
    · rcases List.mem_cons.mp h with h1 | h1
      · exact .inr (h1 ▸ List.mem_cons_self _ _)
      · rcases mem_setSession rest id v e h1 with h2 | h2
        · exact .inl h2
        · exact .inr (List.mem_cons_of_mem _ h2)

theorem removeListener_of_entryInv {m : ManagedSession} (h : EntryInv m) :
    removeListener m.listeners m.onData = [] := by
  rcases h.1 with h1 | h1 <;> rw [h1] <;> simp [removeListener]

/-- Every single manager transition preserves the invariant. -/
theorem SMStep.preserves {s s' : SMState} (hstep : SMStep s s') (hinv : SMInv s) :
    SMInv s' := by
  cases hstep with
  | create id =>
    intro e he
    rcases mem_setSession _ _ _ _ he with rfl | he'
    · exact ⟨.inl rfl, fun h => absurd rfl h⟩
    · exact hinv e he'
  | attach id ws =>
    rw [SMState.attachClient]
    cases hl : s.lookup id with
    | none => simpa using hinv
    | some m =>
      have hm : EntryInv m := hinv (id, m) (lookup_mem _ _ _ hl)
      intro e he
      simp only at he
      rcases mem_setSession _ _ _ _ he with rfl | he'
      · have hls : (if m.client.isSome then removeListener m.listeners m.onData
            else m.listeners) = [] := by
          rcases hm.1 with h1 | h1
          · rw [h1]
            simp [removeListener]
          · have hsome : m.client.isSome := hm.2 (by rw [h1]; simp)
            rw [if_pos hsome, removeListener_of_entryInv hm]
        refine ⟨?_, fun _ => rfl⟩
        rw [hls]
        exact .inr rfl
      · exact hinv e he'
  | detach id =>
    rw [SMState.detachClient]
    cases hl : s.lookup id with
    | none => exact hinv
    | some m =>
      have hm : EntryInv m := hinv (id, m) (lookup_mem _ _ _ hl)
      intro e he
      simp only at he
      rcases mem_setSession _ _ _ _ he with rfl | he'
      · rw [removeListener_of_entryInv hm]
        exact ⟨.inl rfl, fun h => absurd rfl h⟩
      · exact hinv e he'
  | destroy id =>
    intro e he
    exact hinv e (List.mem_of_mem_filter he)
  | exit id =>
    intro e he
    exact hinv e (List.mem_of_mem_filter he)

/-- C4 — in every reachable session-manager state, each session has at most
one registered `data` subscription, a present subscription is exactly the
stored `onData` callback, and a present subscription implies an attached
client (the `client` field holds at most one socket by construction).
`attachClient` removes the previous client's listener before registering
the fresh one, and `detachClient` removes the listener and clears the
socket. -/
theorem sessionManager_single_subscription (s : SMState)
    (h : SMReachable s) : SMInv s := by
  induction h with
  | refl => intro e he; simp [SMState.init] at he
  | tail _ hstep ih => exact hstep.preserves ih

/-- A concrete reachable state: create session `"s1"`, then attach socket
`7` to it. -/
def smWitnessState : SMState :=
  ((SMState.init.createSession "s1").attachClient "s1" 7).2

/-- Closed witness for `sessionManager_single_subscription` at
`smWitnessState`. -/
theorem sessionManager_single_subscription_witness :
    SMReachable smWitnessState ∧ SMInv smWitnessState :=
  have hreach : SMReachable smWitnessState :=
    Relation.ReflTransGen.tail
      (Relation.ReflTransGen.single (SMStep.create SMState.init "s1"))
      (SMStep.attach (SMState.init.createSession "s1") "s1" 7)
  ⟨hreach, sessionManager_single_subscription smWitnessState hreach⟩

/-! ## File handler — `src/server/file-handler.ts`

Node `path.resolve` on absolute bases is modelled on path-component lists:
a path's components are the non-empty segments between `/` separators, and
normalization processes `.` and `..` (with `..` clamped at the root, as in
Node).  The `relativePath` argument is given as its component list; the
sandbox root `sessionsDir` (which the constructor passes through
`resolve`) is an absolute, already-normalized component list.  The
`startsWith` guard is a *string*-level prefix check in the source, so the
rendered absolute path strings are compared character by character. -/

/-- One step of Node path normalization. -/
def normStep (acc : List String) (c : String) : List String :=
  if c = "" ∨ c = "." then acc
  else if c = ".." then acc.dropLast
  else acc ++ [c]

/-- Node `path.resolve` normalization of an absolute component list. -/
def normalizeComps (cs : List String) : List String :=
  cs.foldl normStep []

/-- Render an absolute component list as the POSIX path string. -/
def renderAbs (cs : List String) : String :=
  if cs = [] then "/" else cs.foldl (fun acc c => acc ++ "/" ++ c) ""

/-- JS `String.prototype.startsWith`: a character-level prefix test. -/
def strStartsWith (s pre : String) : Bool :=
  pre.toList.isPrefixOf s.toList

structure FileHandler where
  sessionsDir : List String
deriving DecidableEq, Repr

/-- `FileHandler.resolvePath`: resolve the session directory and the
requested path, then reject when the absolute path string does not start
with the session directory string. -/
def FileHandler.resolvePath (fh : FileHandler) (sessionId : String)
    (relParts : List String) : Except String (List String) :=
  let sessionDir := normalizeComps (fh.sessionsDir ++ [sessionId])
  let fullPath := normalizeComps (sessionDir ++ relParts)
  if strStartsWith (renderAbs fullPath) (renderAbs sessionDir) then .ok fullPath
  else .error "Path traversal detected: access denied"

/-- The file system seen by `readFile`/`writeFile`: absolute path → file
bytes. -/
abbrev FS := List (List String × List Nat)

/-- JS-style map update for the file-system model. -/
def setFile (fs : FS) (p : List String) (content : List Nat) : FS :=
  match fs with
  | [] => [(p, content)]
  | (q, c) :: rest =>
    if q = p then (p, content) :: rest else (q, c) :: setFile rest p content

/-- `FileHandler.readFile`: resolve (guard included), `statSync` (throws
`ENOENT` when missing), reject files over 5 MiB, return the content.  The
extension → language lookup only decorates the result and is not modelled
here. -/
def FileHandler.readFile (fh : FileHandler) (fs : FS) (sessionId : String)
    (relParts : List String) : Except String (List Nat) :=
  match fh.resolvePath sessionId relParts with
  | .error e => .error e
  | .ok p =>
    match fs.lookup p with
    | none => .error "ENOENT"
    | some content =>
      if 5 * 1024 * 1024 < content.length then .error "File too large (max 5MB)"
      else .ok content

/-- `FileHandler.writeFile`: resolve (guard included), create parents
(implicit in the map model), write/overwrite the content. -/
def FileHandler.writeFile (fh : FileHandler) (fs : FS) (sessionId : String)
    (relParts : List String) (content : List Nat) : Except String FS :=
  match fh.resolvePath sessionId relParts with
  | .error e => .error e
  | .ok p => .ok (setFile fs p content)

/-- `FileHandler.listFiles`: resolve (guard included), `readdirSync` the
resolved directory (an oracle here), skip dotfiles.  The per-entry
type/size decoration and locale sort order do not affect which directory
is listed and are not modelled. -/
def FileHandler.listFiles (fh : FileHandler)
    (readdirSync : List String → Except String (List String))
    (sessionId : String) (relParts : List String) :
    Except String (List String) :=
  match fh.resolvePath sessionId relParts with
  | .error e => .error e
  | .ok p => (readdirSync p).map (fun es => es.filter (fun n => !(strStartsWith n ".")))

/-- The concrete instance for the failing input: sandbox base
`/base/sessions`, session id `abcd1234`, requested relative path
`../abcd1234evil/x`. -/
def fhEx : FileHandler := ⟨["base", "sessions"]⟩

def evilRel : List String := ["..", "abcd1234evil", "x"]

def evilResolved : List String := ["base", "sessions", "abcd1234evil", "x"]

/-- C1 — the code violates the claim: because the traversal guard compares
path *strings* with `startsWith` and the session directory string has no
trailing separator, the canonical resolution
`/base/sessions/abcd1234evil/x` of the relative path `../abcd1234evil/x`
(which lies outside the sandbox `/base/sessions/abcd1234/`) passes the
guard; `resolvePath` accepts it, `writeFile` writes the file at that
outside location, and `readFile` reads a file planted there. -/
theorem fileHandler_traversal_guard_bypassed :
    fhEx.resolvePath "abcd1234" evilRel = .ok evilResolved ∧
      (normalizeComps (fhEx.sessionsDir ++ ["abcd1234"])).isPrefixOf
          evilResolved = false ∧
      fhEx.writeFile [] "abcd1234" evilRel [65] = .ok [(evilResolved, [65])] ∧
      fhEx.readFile [(evilResolved, [65])] "abcd1234" evilRel = .ok [65] := by
  refine ⟨?_, ?_, ?_, ?_⟩ <;> rfl

/-! ## Broker / WebSocket server — `src/server/ws-server.ts`

The model follows one connected socket through the broker's message loop.
Frames written back to the socket are represented by their content
(`OutFrame`); their byte encodings are the protocol functions above.
`JSON.parse`-based payload decoding (`decodeJsonPayload`) is modelled by
oracle functions supplied in `BrokerDeps`; a JSON exception is an
`Except.error`, which the message loop's `try/catch` turns into a
`PARSE_ERROR` reply exactly as in the source. -/

/-- Per-socket fields stamped on accept. -/
structure SocketState where
  isAlive : Bool
  authenticated : Bool
  currentSessionId : Option String
  readyOpen : Bool
deriving DecidableEq, Repr

/-- Content of a frame the broker writes to the socket. -/
inductive OutFrame where
  | errorFrame (code : String) (message : String)
  | pong
  | authOk
  | sessionList
  | terminalData (bytes : List Nat)
  | fileList (path : List String) (names : List String)
  | fileContent (path : List String) (content : List Nat)
deriving DecidableEq, Repr

/-- `SessionAction` from `src/shared/types.ts`; `other` stands for any
unrecognized action string (the source's `switch` then does nothing). -/
inductive SessionAction where
  | create
  | attach
  | detach
  | destroy
  | list
  | other
deriving DecidableEq, Repr

/-- The fields of a parsed `SessionControlPayload` that drive the control
flow (`name`/`cwd`/`cols`/`rows` only parameterize the spawned PTY). -/
structure CtrlPayload where
  action : SessionAction
  sessionId : Option String
deriving DecidableEq, Repr

/-- Broker-side mutable state relevant to one socket. -/
structure BrokerState where
  sm : SMState
  rl : RateLimiter
  fs : FS
  fh : FileHandler
  wsId : Nat
  ws : SocketState
deriving DecidableEq, Repr

/-- Effects of handling one inbound frame: frames sent to the socket,
bytes written into sessions (`session.write`), resizes forwarded
(`session.resize`), and whether the socket was terminated. -/
structure Effects where
  sent : List OutFrame
  writes : List (String × List Nat)
  resizes : List (String × Nat × Nat)
  closed : Bool
deriving DecidableEq, Repr

def Effects.none0 : Effects := ⟨[], [], [], false⟩

/-- `sendMessage`: writes only when the socket is `OPEN`. -/
def emit (ws : SocketState) (f : OutFrame) : List OutFrame :=
  if ws.readyOpen then [f] else []

/-- External dependencies of the message loop: the `JSON.parse`-based
payload decoders (errors are thrown JSON exceptions) and the random id for
`createSession`. -/
structure BrokerDeps where
  parseResize : List Nat → Except String (Nat × Nat)
  parseCtrl : List Nat → Except String CtrlPayload
  parsePath : List Nat → Except String (List String)
  parseWrite : List Nat → Except String (List String × List Nat)
  readdirSync : List String → Except String (List String)
  newSessionId : String

/-- `CCRServer.attachToSession`: detach from the current session first,
look up the target (unknown → `SESSION_NOT_FOUND`, and the socket's
`currentSessionId` is left as it was), attach, set `currentSessionId`,
replay a non-empty scrollback as one `TERMINAL_DATA` frame. -/
def attachToSession (st : BrokerState) (sid : String) :
    BrokerState × List OutFrame :=
  let st1 :=
    match st.ws.currentSessionId with
    | some cur => { st with sm := st.sm.detachClient cur }
    | none => st
  match st1.sm.lookup sid with
  | none =>
    (st1, emit st1.ws (.errorFrame "SESSION_NOT_FOUND"
      ("Session " ++ sid ++ " not found")))
  | some m =>
    let r := st1.sm.attachClient sid st1.wsId
    let ws2 := { st1.ws with currentSessionId := some sid }
    let st2 := { st1 with sm := r.2, ws := ws2 }
    if r.1 then
      (st2, if m.scrollback ≠ [] then emit st2.ws (.terminalData m.scrollback) else [])
    else (st1, [])

/-- `CCRServer.handleTerminalData`: no attached session → `NO_SESSION`;
stale session id → silently dropped; otherwise write into the session. -/
def handleTerminalData (st : BrokerState) (payload : List Nat) :
    BrokerState × Effects :=
  match st.ws.currentSessionId with
  | none => (st, ⟨emit st.ws (.errorFrame "NO_SESSION" "No session attached"), [], [], false⟩)
  | some sid =>
    match st.sm.lookup sid with
    | some _ => (st, ⟨[], [(sid, payload)], [], false⟩)
    | none => (st, Effects.none0)

/-- `CCRServer.handleResize`: silent no-op without a session; a JSON error
in the payload propagates (to the message loop's catch). -/
def handleResize (deps : BrokerDeps) (st : BrokerState) (payload : List Nat) :
    Except String (BrokerState × Effects) :=
  match st.ws.currentSessionId with
  | none => .ok (st, Effects.none0)
  | some sid =>
    (deps.parseResize payload).map (fun cr =>
      match st.sm.lookup sid with
      | some _ => (st, ⟨[], [], [(sid, cr.1, cr.2)], false⟩)
      | none => (st, Effects.none0))

/-- `CCRServer.handleSessionControl` (with `attachToSession` inlined for
`create`/`attach`). -/
def handleSessionControl (deps : BrokerDeps) (st : BrokerState)
    (payload : List Nat) : Except String (BrokerState × Effects) :=
  (deps.parseCtrl payload).map (fun ctrl =>
    match ctrl.action with
    | .create =>
      let st1 := { st with sm := st.sm.createSession deps.newSessionId }
      let r := attachToSession st1 deps.newSessionId
      (r.1, ⟨r.2 ++ emit r.1.ws .sessionList, [], [], false⟩)
    | .attach =>
      match ctrl.sessionId with
      | none => (st, ⟨emit st.ws (.errorFrame "MISSING_SESSION_ID" "sessionId is required"), [], [], false⟩)
      | some sid =>
        let r := attachToSession st sid
        (r.1, ⟨r.2, [], [], false⟩)
    | .detach =>
      match st.ws.currentSessionId with
      | some cur =>
        let ws2 := { st.ws with currentSessionId := none }
        ({ st with sm := st.sm.detachClient cur, ws := ws2 }, Effects.none0)
      | none => (st, Effects.none0)
    | .destroy =>
      match ctrl.sessionId with
      | none => (st, ⟨emit st.ws (.errorFrame "MISSING_SESSION_ID" "sessionId is required"), [], [], false⟩)
      | some sid =>
        let st1 :=
          if st.ws.currentSessionId = some sid then
            { st with ws := { st.ws with currentSessionId := none } }
          else st
        let st2 := { st1 with sm := st1.sm.destroySession sid }
        (st2, ⟨emit st2.ws .sessionList, [], [], false⟩)
    | .list => (st, ⟨emit st.ws .sessionList, [], [], false⟩)
    | .other => (st, Effects.none0))

/-- `CCRServer.handleFileList`: `NO_SESSION` without a session; JSON
errors propagate; file-handler errors become `FILE_ERROR` frames. -/
def handleFileList (deps : BrokerDeps) (st : BrokerState) (payload : List Nat) :
    Except String (BrokerState × Effects) :=
  match st.ws.currentSessionId with
  | none => .ok (st, ⟨emit st.ws (.errorFrame "NO_SESSION" "No session attached"), [], [], false⟩)
  | some sid =>
    (deps.parsePath payload).map (fun reqPath =>
      match st.fh.listFiles deps.readdirSync sid reqPath with
      | .ok names => (st, ⟨emit st.ws (.fileList reqPath names), [], [], false⟩)
      | .error e => (st, ⟨emit st.ws (.errorFrame "FILE_ERROR" e), [], [], false⟩))

/-- `CCRServer.handleFileRead`. -/
def handleFileRead (deps : BrokerDeps) (st : BrokerState) (payload : List Nat) :
    Except String (BrokerState × Effects) :=
  match st.ws.currentSessionId with
  | none => .ok (st, ⟨emit st.ws (.errorFrame "NO_SESSION" "No session attached"), [], [], false⟩)
  | some sid =>
    (deps.parsePath payload).map (fun reqPath =>
      match st.fh.readFile st.fs sid reqPath with
      | .ok content => (st, ⟨emit st.ws (.fileContent reqPath content), [], [], false⟩)
      | .error e => (st, ⟨emit st.ws (.errorFrame "FILE_ERROR" e), [], [], false⟩))

/-- `CCRServer.handleFileWrite`. -/
def handleFileWrite (deps : BrokerDeps) (st : BrokerState) (payload : List Nat) :
    Except String (BrokerState × Effects) :=
  match st.ws.currentSessionId with
  | none => .ok (st, ⟨emit st.ws (.errorFrame "NO_SESSION" "No session attached"), [], [], false⟩)
  | some sid =>
    (deps.parseWrite payload).map (fun pw =>
      match st.fh.writeFile st.fs sid pw.1 pw.2 with
      | .ok fs2 => ({ st with fs := fs2 }, Effects.none0)
      | .error e => (st, ⟨emit st.ws (.errorFrame "FILE_ERROR" e), [], [], false⟩))

/-- `CCRServer.handleMessage`: ignore unauthenticated sockets, rate-limit
(deny with `RATE_LIMITED`), decode, dispatch on the kind byte; any
exception from decode or a handler becomes a `PARSE_ERROR` reply.  The
handler never terminates the socket. -/
def handleMessage (deps : BrokerDeps) (st : BrokerState) (clientKey : String)
    (now : Int) (raw : List Nat) : BrokerState × Effects :=
  if ¬ st.ws.authenticated then (st, Effects.none0)
  else
    let rc := st.rl.check clientKey now
    let st1 := { st with rl := rc.2 }
    if ¬ rc.1 then
      (st1, ⟨emit st1.ws (.errorFrame "RATE_LIMITED" "Too many messages"), [], [], false⟩)
    else
      let dispatched : Except String (BrokerState × Effects) :=
        match decodeMessage raw with
        | .error e => .error e
        | .ok msg =>
          if msg.type = MessageType.TERMINAL_DATA.code then
            .ok (handleTerminalData st1 msg.payload)
          else if msg.type = MessageType.RESIZE.code then
            handleResize deps st1 msg.payload
          else if msg.type = MessageType.PING.code then
            .ok (st1, ⟨emit st1.ws .pong, [], [], false⟩)
          else if msg.type = MessageType.SESSION_CONTROL.code then
            handleSessionControl deps st1 msg.payload
          else if msg.type = MessageType.FILE_LIST.code then
            handleFileList deps st1 msg.payload
          else if msg.type = MessageType.FILE_READ.code then
            handleFileRead deps st1 msg.payload
          else if msg.type = MessageType.FILE_WRITE.code then
            handleFileWrite deps st1 msg.payload
          else
            .ok (st1, Effects.none0)
      match dispatched with
      | .ok r => r
      | .error e => (st1, ⟨emit st1.ws (.errorFrame "PARSE_ERROR" e), [], [], false⟩)

theorem lookup_setSession_self :
    ∀ (m : List (String × ManagedSession)) (id : String) (v : ManagedSession),
      (setSession m id v).lookup id = some v
  | [], id, v => by simp [setSession, List.lookup]
  | (k, w) :: rest, id, v => by
    rw [setSession]
    split
    · simp [List.lookup]
    · rename_i hne
      rw [List.lookup]
      have : (id == k) = false := by
        simp only [beq_eq_false_iff_ne, ne_eq]
        exact fun h => hne h.symm
      rw [this]
      exact lookup_setSession_self rest id v

theorem lookup_setSession_ne :
    ∀ (m : List (String × ManagedSession)) (id : String) (v : ManagedSession)
      (k : String), k ≠ id → (setSession m id v).lookup k = m.lookup k
  | [], id, v, k, h => by
    simp only [setSession, List.lookup]
    rw [show (k == id) = false by simpa using h]
  | (k0, w) :: rest, id, v, k, h => by
    rw [setSession]
    split
    · rename_i heq
      rw [List.lookup, List.lookup,
        show (k == id) = false by simpa using h,
        show (k == k0) = false by
          simp only [beq_eq_false_iff_ne, ne_eq]
          exact fun hh => h (heq ▸ hh)]
    · rw [List.lookup, List.lookup]
      cases hbeq : (k == k0)
      · exact lookup_setSession_ne rest id v k h
      · rfl

theorem removeListener_single (h : Nat) : removeListener [h] h = [] := by
  simp [removeListener]

/-- C6 — frame decoding is total on arbitrary byte inputs (it succeeds
exactly on nonempty inputs and otherwise returns a recoverable error
value rather than aborting), and on an authenticated, rate-admitted socket
a frame that fails to decode is answered with a single recoverable
`PARSE_ERROR` frame: the socket is not closed and the session, socket and
file-system state are unchanged (only the rate-limiter slot was
consumed). -/
theorem decode_total_and_parse_error_recoverable :
    (∀ raw : List Nat, (∃ m, decodeMessage raw = .ok m) ↔ raw ≠ []) ∧
      (∀ (deps : BrokerDeps) (st : BrokerState) (key : String) (now : Int)
        (raw : List Nat) (e : String),
        st.ws.authenticated = true →
        (st.rl.check key now).1 = true →
        decodeMessage raw = .error e →
        handleMessage deps st key now raw =
          ({ st with rl := (st.rl.check key now).2 },
            ⟨emit st.ws (.errorFrame "PARSE_ERROR" e), [], [], false⟩)) := by
  constructor
  · intro raw
    cases raw <;> simp [decodeMessage]
  · intro deps st key now raw e hauth hrate hdec
    simp [handleMessage, hauth, hrate, hdec]

/-- Concrete state for the broker witnesses: an authenticated, open socket
with no attached session, fresh manager and limiter. -/
def st0 : BrokerState :=
  ⟨SMState.init, brokerLimiter, [], ⟨["base", "sessions"]⟩, 0,
    ⟨true, true, none, true⟩⟩

/-- Trivial oracle bundle (never consulted by the witness frames). -/
def deps0 : BrokerDeps :=
  ⟨fun _ => .error "j", fun _ => .error "j", fun _ => .error "j",
    fun _ => .error "j", fun _ => .error "j", "s1"⟩

/-- Closed witness for `decode_total_and_parse_error_recoverable`: the
empty frame on `st0`. -/
theorem decode_total_and_parse_error_recoverable_witness :
    st0.ws.authenticated = true ∧ (st0.rl.check "k" 0).1 = true ∧
      decodeMessage [] = .error "Message too short: missing type byte" ∧
      handleMessage deps0 st0 "k" 0 [] =
        ({ st0 with rl := (st0.rl.check "k" 0).2 },
          ⟨[.errorFrame "PARSE_ERROR" "Message too short: missing type byte"],
            [], [], false⟩) :=
  ⟨rfl, rfl, rfl,
    decode_total_and_parse_error_recoverable.2 deps0 st0 "k" 0 []
      "Message too short: missing type byte" rfl rfl rfl⟩

/-- C10 — an inbound frame on an authenticated, rate-admitted socket that
decodes successfully but whose kind byte is none of the handled kinds
(`TERMINAL_DATA`, `RESIZE`, `PING`, `SESSION_CONTROL`, `FILE_LIST`,
`FILE_READ`, `FILE_WRITE`) produces no reply of any kind, no session write,
no resize, does not close the socket, and leaves the sessions, the socket
fields and the file system unchanged (only the rate-limiter slot was
consumed): the `switch` falls through to `default` and the frame is
silently ignored. -/
theorem unknown_kind_ignored (deps : BrokerDeps) (st : BrokerState)
    (key : String) (now : Int) (kind : Nat) (payload : List Nat)
    (hauth : st.ws.authenticated = true)
    (hrate : (st.rl.check key now).1 = true)
    (hk : kind ∉ [0x00, 0x01, 0x02, 0x04, 0x0a, 0x0b, 0x0d]) :
    handleMessage deps st key now (kind :: payload) =
      ({ st with rl := (st.rl.check key now).2 }, Effects.none0) := by
  simp only [List.mem_cons, List.not_mem_nil, or_false, not_or] at hk
  obtain ⟨h0, h1, h2, h4, ha, hb, hd⟩ := hk
  simp [handleMessage, hauth, hrate, decodeMessage, MessageType.code,
    h0, h1, h2, h4, ha, hb, hd, Effects.none0]

/-- Closed witness for `unknown_kind_ignored`: a `SESSION_OUTPUT` (0x09)
frame sent *to* the server, which handles no such inbound kind. -/
theorem unknown_kind_ignored_witness :
    st0.ws.authenticated = true ∧ (st0.rl.check "k" 0).1 = true ∧
      (9 : Nat) ∉ [0x00, 0x01, 0x02, 0x04, 0x0a, 0x0b, 0x0d] ∧
      handleMessage deps0 st0 "k" 0 (9 :: [1, 2]) =
        ({ st0 with rl := (st0.rl.check "k" 0).2 }, Effects.none0) :=
  ⟨rfl, rfl, by decide,
    unknown_kind_ignored deps0 st0 "k" 0 9 [1, 2] rfl rfl (by decide)⟩

/-- C9 — a socket attached to session `S` that requests an attach to an
unknown session id `U`: the broker first detaches the socket from `S` in
the session manager (so `S` keeps no `data` listener and no output is
forwarded any more), replies `SESSION_NOT_FOUND`, and leaves the socket's
`currentSessionId` at `S`; a subsequent `TERMINAL_DATA` payload `d` is
therefore still written into `S` and no `NO_SESSION` error is produced. -/
theorem attach_unknown_keeps_current_session (st : BrokerState)
    (S U : String) (m : ManagedSession) (d : List Nat)
    (hcur : st.ws.currentSessionId = some S)
    (hS : st.sm.lookup S = some m)
    (hsub : m.listeners = [m.onData])
    (hU : st.sm.lookup U = none) :
    (attachToSession st U).1.ws.currentSessionId = some S ∧
      (attachToSession st U).2 =
        emit st.ws (.errorFrame "SESSION_NOT_FOUND"
          ("Session " ++ U ++ " not found")) ∧
      (attachToSession st U).1.sm.lookup S =
        some ⟨none, st.sm.nextHandler, [], m.scrollback⟩ ∧
      handleTerminalData (attachToSession st U).1 d =
        ((attachToSession st U).1, ⟨[], [(S, d)], [], false⟩) := by
  have hne : S ≠ U := fun h => by rw [h, hU] at hS; cases hS
  have hdet : st.sm.detachClient S =
      ⟨setSession st.sm.sessions S
        ⟨none, st.sm.nextHandler, [], m.scrollback⟩, st.sm.nextHandler + 1⟩ := by
    rw [SMState.detachClient, hS]
    show (⟨setSession st.sm.sessions S
      ⟨none, st.sm.nextHandler, removeListener m.listeners m.onData,
        m.scrollback⟩, st.sm.nextHandler + 1⟩ : SMState) = _
    rw [hsub, removeListener_single]
  have hlookS : (st.sm.detachClient S).lookup S =
      some ⟨none, st.sm.nextHandler, [], m.scrollback⟩ := by
    rw [hdet]
    exact lookup_setSession_self _ _ _
  have hlookU : (st.sm.detachClient S).lookup U = none := by
    rw [hdet]
    show (setSession st.sm.sessions S _).lookup U = none
    rw [lookup_setSession_ne _ _ _ _ (fun h => hne h.symm)]
    exact hU
  have hatt : attachToSession st U =
      ({ st with sm := st.sm.detachClient S },
        emit st.ws (.errorFrame "SESSION_NOT_FOUND"
          ("Session " ++ U ++ " not found"))) := by
    rw [attachToSession, hcur]
    simp only [hlookU]
  refine ⟨by rw [hatt]; exact hcur, by rw [hatt], by rw [hatt]; exact hlookS, ?_⟩
  rw [handleTerminalData]
  rw [hatt]
  simp only [hcur, hlookS]

/-- Concrete broker state for the C9 witness: session `"s1"` exists and is
attached to this socket (id 7). -/
def smW : SMState := ((SMState.init.createSession "s1").attachClient "s1" 7).2

def stW : BrokerState :=
  ⟨smW, brokerLimiter, [], ⟨["base", "sessions"]⟩, 7, ⟨true, true, some "s1", true⟩⟩

def mW : ManagedSession := ⟨some 7, 1, [1], []⟩

/-- Closed witness for `attach_unknown_keeps_current_session`: attach to
the unknown id `"zz"` while attached to `"s1"`. -/
theorem attach_unknown_keeps_current_session_witness :
    (stW.ws.currentSessionId = some "s1" ∧ stW.sm.lookup "s1" = some mW ∧
        mW.listeners = [mW.onData] ∧ stW.sm.lookup "zz" = none) ∧
      ((attachToSession stW "zz").1.ws.currentSessionId = some "s1" ∧
        (attachToSession stW "zz").2 =
          emit stW.ws (.errorFrame "SESSION_NOT_FOUND"
            ("Session " ++ "zz" ++ " not found")) ∧
        (attachToSession stW "zz").1.sm.lookup "s1" =
          some ⟨none, stW.sm.nextHandler, [], mW.scrollback⟩ ∧
        handleTerminalData (attachToSession stW "zz").1 [9] =
          ((attachToSession stW "zz").1, ⟨[], [("s1", [9])], [], false⟩)) :=
  ⟨⟨rfl, rfl, rfl, rfl⟩,
    attach_unknown_keeps_current_session stW "s1" "zz" mW [9] rfl rfl rfl rfl⟩

/-! ## Client connection — `src/client/connection.ts`

Reconnect state machine.  `RECONNECT_BASE_DELAY_MS = 1000`,
`RECONNECT_MAX_DELAY_MS = 30000`, `RECONNECT_MAX_ATTEMPTS = 10`
(`src/shared/constants.ts`).  `Math.random() * 1000` is modelled as a
parameter `r : ℚ` with `0 ≤ r < 1000`. -/

structure Connection where
  autoReconnect : Bool
  reconnectAttempts : Nat
  connected : Bool
  authenticated : Bool
deriving DecidableEq, Repr

/-- Events emitted to subscribers, and the delay of a scheduled retry. -/
inductive CEvent where
  | reconnecting (attempt : Nat) (delay : ℚ)
  | reconnectFailed
  | connectedEv
  | disconnectedEv
deriving DecidableEq

/-- `Connection.scheduleReconnect`: no-op without `autoReconnect`; after
`RECONNECT_MAX_ATTEMPTS` failures emit `reconnect-failed` and schedule
nothing; otherwise schedule one retry after
`min(1000 · 2^attempts + r, 30000)` ms and bump the counter.  The third
component is the delay passed to `setTimeout` (`none` = no timer set). -/
def Connection.scheduleReconnect (c : Connection) (r : ℚ) :
    Connection × List CEvent × Option ℚ :=
  if ¬ c.autoReconnect then (c, [], none)
  else if 10 ≤ c.reconnectAttempts then (c, [.reconnectFailed], none)
  else
    let delay := min (1000 * 2 ^ c.reconnectAttempts + r) 30000
    ({ c with reconnectAttempts := c.reconnectAttempts + 1 },
      [.reconnecting (c.reconnectAttempts + 1) delay], some delay)

/-- The `open` handler in `Connection.connect`: sets `_connected`, resets
the attempt counter, emits `connected`. -/
def Connection.handleOpen (c : Connection) : Connection × List CEvent :=
  ({ c with connected := true, reconnectAttempts := 0 }, [.connectedEv])

/-- The `close` handler in `Connection.connect`: clears the flags, emits
`disconnected`, then runs `scheduleReconnect`. -/
def Connection.handleClose (c : Connection) (r : ℚ) :
    Connection × List CEvent × Option ℚ :=
  let c1 := { c with connected := false, authenticated := false }
  let sr := c1.scheduleReconnect r
  (sr.1, .disconnectedEv :: sr.2.1, sr.2.2)

/-- C8 — the reconnect policy on socket close with `autoReconnect`:
(1) with fewer than 10 attempts made, exactly one retry is scheduled,
after `min(1000 · 2^attempts + r, 30000)` ms for the sampled jitter
`r ∈ [0, 1000)`, the counter is bumped, and `reconnect-failed` is not
emitted; (2) a successful open resets the counter to 0; (3) once 10
attempts have been made, `reconnect-failed` is emitted and no retry is
scheduled. -/
theorem reconnect_policy :
    (∀ (c : Connection) (r : ℚ), c.autoReconnect = true →
      c.reconnectAttempts < 10 → 0 ≤ r → r < 1000 →
      (c.handleClose r).2.2 =
          some (min (1000 * 2 ^ c.reconnectAttempts + r) 30000) ∧
        (c.handleClose r).1.reconnectAttempts = c.reconnectAttempts + 1 ∧
        (c.handleClose r).2.1 =
          [.disconnectedEv, .reconnecting (c.reconnectAttempts + 1)
            (min (1000 * 2 ^ c.reconnectAttempts + r) 30000)] ∧
        CEvent.reconnectFailed ∉ (c.handleClose r).2.1) ∧
      (∀ c : Connection, (c.handleOpen).1.reconnectAttempts = 0) ∧
      (∀ (c : Connection) (r : ℚ), c.autoReconnect = true →
        10 ≤ c.reconnectAttempts →
        (c.handleClose r).2.2 = none ∧
          (c.handleClose r).2.1 = [.disconnectedEv, .reconnectFailed]) := by
  refine ⟨?_, ?_, ?_⟩
  · intro c r hauto hlt _ _
    simp [Connection.handleClose, Connection.scheduleReconnect, hauto,
      Nat.not_le.mpr hlt]
  · intro c
    rfl
  · intro c r hauto hge
    simp [Connection.handleClose, Connection.scheduleReconnect, hauto, hge]

/-- Closed witness for `reconnect_policy`: a first close with jitter 5,
an open, and an exhausted close. -/
theorem reconnect_policy_witness :
    ((Connection.handleClose ⟨true, 0, true, true⟩ 5).2.2 =
        some (min (1000 * 2 ^ 0 + 5) 30000) ∧
      (Connection.handleClose ⟨true, 0, true, true⟩ 5).1.reconnectAttempts = 1) ∧
      (Connection.handleOpen ⟨true, 3, false, false⟩).1.reconnectAttempts = 0 ∧
      ((Connection.handleClose ⟨true, 10, true, true⟩ 5).2.2 = none ∧
        (Connection.handleClose ⟨true, 10, true, true⟩ 5).2.1 =
          [.disconnectedEv, .reconnectFailed]) :=
  have h1 := reconnect_policy.1 ⟨true, 0, true, true⟩ 5 rfl (by norm_num)
    (by norm_num) (by norm_num)
  have h3 := reconnect_policy.2.2 ⟨true, 10, true, true⟩ 5 rfl (by norm_num)
  ⟨⟨h1.1, h1.2.1⟩, reconnect_policy.2.1 ⟨true, 3, false, false⟩, h3⟩

end Ccr
